import Mathlib

/-!
Verification of the delete-execution subsystem of the SQL connector
(`transactional/database_writer/delete.rs`): the two orchestrators
`execute` (top-level delete) and `execute_nested` (delete of a child
record under a parent), embedded shallowly as state-passing functions
that record the trace of statements executed through the transaction.

Collaborators that live outside the embedded file (`transaction_ext`
reads, `DeleteActions::check_relation_violations`,
`WriteQueryBuilder::delete_many`, the `NestedActions` capability and the
error types) are modelled from the specification, as documented on each
definition.  The two orchestrators themselves are translated directly
from the source.
-/

namespace PrismaDelete

/-- Primary-key value of a row (the source's `GraphqlId`): an opaque,
comparable, unique identifier, modelled as a natural number. -/
abbrev GraphqlId := Nat

/-- A relation attached to a model, as seen by the relation-violation
check: the relation's name and whether the opposite side is required
(so that deleting a referenced row would orphan it). -/
structure Relation where
  name : String
  oppositeRequired : Bool
deriving DecidableEq

/-- Schema model descriptor: model name, the name of its id field, and
the relations attached to it.  Read-only metadata supplied by the schema
layer. -/
structure Model where
  name : String
  idFieldName : String
  relations : List Relation
deriving DecidableEq

/-- The source's `RecordFinder`: an immutable criterion (field plus
value) bound to exactly one model, resolving to at most one row. -/
structure RecordFinder where
  model : Model
  fieldName : String
  value : GraphqlId
deriving DecidableEq

/-- The source's `RelationFieldRef`: directed relationship metadata.
`model` is the parent side of the relation, `relatedModel` the child
side (`related_model()` in the source). -/
structure RelationField where
  relationName : String
  model : Model
  relatedModel : Model
deriving DecidableEq

/-- The source's `SingleRecord`: a materialized row snapshot with field
values, modelled as an association list from field names to values. -/
structure SingleRecord where
  fields : List (String × GraphqlId)
deriving DecidableEq

/-- The accessor `Record::get_id_value`: the value of the model's id
field in the snapshot, when present. -/
def SingleRecord.get_id_value (r : SingleRecord) (m : Model) : Option GraphqlId :=
  r.fields.lookup m.idFieldName

/-- The source's `RecordFinderInfo`: a descriptor naming a model, a
field and a value, used inside structured errors. -/
structure RecordFinderInfo where
  model : String
  field : String
  value : GraphqlId
deriving DecidableEq

/-- The constructor `RecordFinderInfo::for_id`: the descriptor that
locates a row of model `m` by its id field and the given id. -/
def RecordFinderInfo.for_id (m : Model) (id : GraphqlId) : RecordFinderInfo :=
  ⟨m.name, m.idFieldName, id⟩

/-- The `SqlError` variants relevant to the delete subsystem.
`RecordsNotConnected` carries the fields matched by the source's
`map_err` pattern.  `RecordNotFoundForWhere` is the structured NotFound
error, `RelationViolation` identifies the offending relation, and
`QueryError` stands for any transport or query failure that this core
passes through unmodified. -/
inductive SqlError where
  | RecordNotFoundForWhere (info : RecordFinderInfo)
  | RecordsNotConnected (relation_name : String) (parent_name : String)
      (parent_where : Option RecordFinderInfo) (child_name : String)
      (child_where : Option RecordFinderInfo)
  | RelationViolation (relation_name : String)
  | QueryError (msg : String)
deriving DecidableEq

/-- Whether an `SqlError` is the `RecordsNotConnected` variant. -/
def SqlError.isRecordsNotConnected : SqlError → Bool
  | .RecordsNotConnected _ _ _ _ _ => true
  | _ => false

/-- Outcome of a run: a structured `SqlError` returned through
`crate::Result`, or a Rust panic (the `.unwrap()` on line 18 of the
source when the located record carries no id value). -/
inductive Failure where
  | sql (e : SqlError)
  | unwrapNonePanic
deriving DecidableEq

/-- A physical delete statement as produced by the statement builder:
the target model's name and the keys to delete. -/
structure DeleteStmt where
  modelName : String
  keys : List GraphqlId
deriving DecidableEq

/-- One statement executed through the transaction.  The trace of a run
is the list of these, in execution order. -/
inductive Statement where
  | selectFindRecord (finder : RecordFinder)
  | selectFindId (finder : RecordFinder)
  | selectFindIdByParent (relationName : String) (parentId : GraphqlId)
      (finder : Option RecordFinder)
  | selectConnected (parentId childId : GraphqlId)
  | selectViolationProbe (modelName relationName : String) (keys : List GraphqlId)
  | delete (modelName : String) (keys : List GraphqlId)
deriving DecidableEq

/-- Whether a statement is a delete (a write, as opposed to a probe or
lookup read). -/
def Statement.isDelete : Statement → Bool
  | .delete _ _ => true
  | _ => false

/-- The delete statements contained in a trace, in order. -/
def deletesIn (tr : List Statement) : List Statement :=
  tr.filter Statement.isDelete

/-- Modelled from the spec: the `NestedActions` capability supplied by
the orchestration layer.  Given a parent and child key it produces a
connectivity read, and a check function that converts whether any row
was returned into success or a structured not-connected error carrying
the relation name and descriptors for parent and child.  The concrete
type lives outside the embedded file. -/
structure NestedActions where
  relationName : String
  parentName : String
  parentWhere : RecordFinderInfo
  childName : String
deriving DecidableEq

/-- Modelled from the spec: the check half of
`NestedActions::ensure_connected` — the sole authority on connectivity
semantics.  Given whether any row came back from the connectivity read,
succeed or fail with `RecordsNotConnected` naming the relation and a
parent descriptor. -/
def NestedActions.check (a : NestedActions) (connected : Bool) : Except SqlError Unit :=
  if connected then .ok ()
  else .error (.RecordsNotConnected a.relationName a.parentName
    (some a.parentWhere) a.childName none)

/-- The ambient transaction and database contents as an oracle: what
each collaborator read returns and whether each delete succeeds.  The
reads themselves (`transaction_ext::find_record`, `find_id`,
`find_id_by_parent`, `select_ids`) live outside the embedded file and
are modelled from the spec as arbitrary functions of their inputs. -/
structure Env where
  findRecord : RecordFinder → Option SingleRecord
  findId : RecordFinder → Option GraphqlId
  findIdByParent : RelationField → GraphqlId → Option RecordFinder → Except SqlError GraphqlId
  connectedRows : GraphqlId → GraphqlId → List GraphqlId
  violationProbeRows : String → String → List GraphqlId → List GraphqlId
  deleteOutcome : String → List GraphqlId → Option SqlError

/-- Modelled from the spec: `transaction_ext::find_record` — run the
finder's read through the transaction and return the matching record,
or fail with NotFound if zero rows match. -/
def find_record (env : Env) (rf : RecordFinder) :
    Except SqlError SingleRecord × List Statement :=
  match env.findRecord rf with
  | some r => (.ok r, [Statement.selectFindRecord rf])
  | none => (.error (.RecordNotFoundForWhere ⟨rf.model.name, rf.fieldName, rf.value⟩),
      [Statement.selectFindRecord rf])

/-- Modelled from the spec: `transaction_ext::find_id` — run the
finder's read and return the matching row's id, or fail with NotFound
if zero rows match. -/
def find_id (env : Env) (rf : RecordFinder) :
    Except SqlError GraphqlId × List Statement :=
  match env.findId rf with
  | some id => (.ok id, [Statement.selectFindId rf])
  | none => (.error (.RecordNotFoundForWhere ⟨rf.model.name, rf.fieldName, rf.value⟩),
      [Statement.selectFindId rf])

/-- Modelled from the spec:
`DeleteActions::check_relation_violations` — for each relation on the
model that requires the opposite side, build a probe read asking
whether any row on the other side still references one of the candidate
keys, execute it through the passed closure (which returns the first id
of the result), and fail fast with `RelationViolation` naming the
offending relation as soon as any probe returns a row. -/
def check_relation_violations (probe : String → String → List GraphqlId → List GraphqlId)
    (m : Model) (ids : List GraphqlId) :
    List Relation → Except SqlError Unit × List Statement
  | [] => (.ok (), [])
  | r :: rest =>
    if r.oppositeRequired then
      let stmt := Statement.selectViolationProbe m.name r.name ids
      let rows := probe m.name r.name ids
      if rows.head?.isSome then
        (.error (.RelationViolation r.name), [stmt])
      else
        let step := check_relation_violations probe m ids rest
        (step.1, stmt :: step.2)
    else check_relation_violations probe m ids rest

/-- Modelled from the spec: `WriteQueryBuilder::delete_many` — turn a
model and a set of keys into a sequence of executable delete
statements.  The construction is pure and opaque to this core beyond
producing a sequence; it is modelled as one statement carrying the
keys. -/
def delete_many (m : Model) (ids : List GraphqlId) : List DeleteStmt :=
  [⟨m.name, ids⟩]

/-- The delete loop of both orchestrators
(`for delete in ... { conn.delete(delete)?; }`): execute each delete
statement in order through the transaction, stopping at the first
failure. -/
def runDeletes (outcome : String → List GraphqlId → Option SqlError) :
    List DeleteStmt → Except SqlError Unit × List Statement
  | [] => (.ok (), [])
  | d :: rest =>
    match outcome d.modelName d.keys with
    | some e => (.error e, [Statement.delete d.modelName d.keys])
    | none =>
      let step := runDeletes outcome rest
      (step.1, Statement.delete d.modelName d.keys :: step.2)

/-- Source function `execute` (delete.rs, lines 15 to 30): locate the
record by the finder, extract its id (unwrap — a missing id value
panics), check relation violations for that id, then build and execute
the delete statements, returning the originally located record. -/
def execute (env : Env) (record_finder : RecordFinder) :
    Except Failure SingleRecord × List Statement :=
  let model := record_finder.model
  match find_record env record_finder with
  | (.error e, tr) => (.error (.sql e), tr)
  | (.ok record, tr₁) =>
    match record.get_id_value model with
    | none => (.error .unwrapNonePanic, tr₁)
    | some id =>
      match check_relation_violations env.violationProbeRows model [id] model.relations with
      | (.error e, tr₂) => (.error (.sql e), tr₁ ++ tr₂)
      | (.ok _, tr₂) =>
        match runDeletes env.deleteOutcome (delete_many model [id]) with
        | (.error e, tr₃) => (.error (.sql e), tr₁ ++ tr₂ ++ tr₃)
        | (.ok _, tr₃) => (.ok record, tr₁ ++ tr₂ ++ tr₃)

/-- The `map_err` closure of `execute_nested` (delete.rs, lines 59 to
78): a `RecordsNotConnected` error from the parent-scoped lookup is
rebuilt with `parent_where` set to the descriptor for the parent id on
the relation field's parent model (the incoming `parent_where` is
discarded by the pattern); every other error is returned unchanged. -/
def enrichNotConnected (relation_field : RelationField) (parent_id : GraphqlId) :
    SqlError → SqlError
  | .RecordsNotConnected relation_name parent_name _ child_name child_where =>
    .RecordsNotConnected relation_name parent_name
      (some (RecordFinderInfo.for_id relation_field.model parent_id))
      child_name child_where
  | e => e

/-- Steps 2 to 6 of `execute_nested` (everything after the optional
existence pre-check): parent-scoped child lookup with error enrichment,
connectivity check through the `NestedActions` capability,
relation-violation check on the related model, then the delete loop. -/
def nested_after_pre (env : Env) (parent_id : GraphqlId) (actions : NestedActions)
    (record_finder : Option RecordFinder) (relation_field : RelationField) :
    Except Failure Unit × List Statement :=
  let findStmt := Statement.selectFindIdByParent relation_field.relationName
    parent_id record_finder
  match env.findIdByParent relation_field parent_id record_finder with
  | .error e => (.error (.sql (enrichNotConnected relation_field parent_id e)), [findStmt])
  | .ok child_id =>
    let connStmt := Statement.selectConnected parent_id child_id
    match actions.check (env.connectedRows parent_id child_id).head?.isSome with
    | .error e => (.error (.sql e), [findStmt, connStmt])
    | .ok _ =>
      let related := relation_field.relatedModel
      match check_relation_violations env.violationProbeRows related [child_id] related.relations with
      | (.error e, tr₂) => (.error (.sql e), findStmt :: connStmt :: tr₂)
      | (.ok _, tr₂) =>
        match runDeletes env.deleteOutcome (delete_many relation_field.relatedModel [child_id]) with
        | (.error e, tr₃) => (.error (.sql e), findStmt :: connStmt :: (tr₂ ++ tr₃))
        | (.ok _, tr₃) => (.ok (), findStmt :: connStmt :: (tr₂ ++ tr₃))

/-- Source function `execute_nested` (delete.rs, lines 41 to 98): if an
explicit finder is given, first verify it resolves to some row (the
returned id is discarded), then run the remaining steps. -/
def execute_nested (env : Env) (parent_id : GraphqlId) (actions : NestedActions)
    (record_finder : Option RecordFinder) (relation_field : RelationField) :
    Except Failure Unit × List Statement :=
  match record_finder with
  | some rf =>
    match find_id env rf with
    | (.error e, tr) => (.error (.sql e), tr)
    | (.ok _, tr₁) =>
      let rest := nested_after_pre env parent_id actions (some rf) relation_field
      (rest.1, tr₁ ++ rest.2)
  | none => nested_after_pre env parent_id actions none relation_field

/-- The optional existence pre-check of `execute_nested` succeeds:
either no explicit finder is given, or the finder's read returns a
row. -/
def preCheckOk (env : Env) (record_finder : Option RecordFinder) : Prop :=
  match record_finder with
  | none => True
  | some rf => (env.findId rf).isSome

/-! Helper lemmas about the relation-violation checker and the delete
loop. -/

/-- A list has a first element exactly when it is nonempty. -/
lemma head?_isSome_iff {α : Type} (l : List α) : l.head?.isSome = true ↔ l ≠ [] := by
  cases l <;> simp

/-- The relation-violation checker issues only probe reads, never a
delete statement. -/
lemma check_relation_violations_no_deletes
    (probe : String → String → List GraphqlId → List GraphqlId) (m : Model)
    (ids : List GraphqlId) (rels : List Relation) :
    deletesIn (check_relation_violations probe m ids rels).2 = [] := by
  induction rels with
  | nil => simp [check_relation_violations, deletesIn]
  | cons r rest ih =>
    simp only [check_relation_violations]
    by_cases hr : r.oppositeRequired
    · by_cases hp : (probe m.name r.name ids).head?.isSome
      · simp [hr, hp, deletesIn, Statement.isDelete]
      · simpa [hr, hp, deletesIn, Statement.isDelete] using ih
    · simpa [hr] using ih

/-- If some relation of the list requires the opposite side and its
probe returns a row, the checker fails with a `RelationViolation`. -/
lemma check_relation_violations_error
    (probe : String → String → List GraphqlId → List GraphqlId) (m : Model)
    (ids : List GraphqlId) (rels : List Relation) (r : Relation)
    (hmem : r ∈ rels) (hreq : r.oppositeRequired = true)
    (hrows : probe m.name r.name ids ≠ []) :
    ∃ n, (check_relation_violations probe m ids rels).1 =
      .error (.RelationViolation n) := by
  induction rels with
  | nil => cases hmem
  | cons a rest ih =>
    simp only [check_relation_violations]
    by_cases ha : a.oppositeRequired
    · by_cases hp : (probe m.name a.name ids).head?.isSome
      · exact ⟨a.name, by simp [ha, hp]⟩
      · rcases List.mem_cons.mp hmem with h | h
        · subst h
          exact absurd ((head?_isSome_iff _).mpr hrows) hp
        · obtain ⟨n, hn⟩ := ih h
          exact ⟨n, by simp [ha, hp, hn]⟩
    · rcases List.mem_cons.mp hmem with h | h
      · subst h
        exact absurd hreq ha
      · obtain ⟨n, hn⟩ := ih h
        exact ⟨n, by simp [ha, hn]⟩

/-- If no required relation's probe returns a row, the checker
succeeds. -/
lemma check_relation_violations_ok
    (probe : String → String → List GraphqlId → List GraphqlId) (m : Model)
    (ids : List GraphqlId) (rels : List Relation)
    (h : ∀ r ∈ rels, r.oppositeRequired = true →
      probe m.name r.name ids = []) :
    (check_relation_violations probe m ids rels).1 = .ok () := by
  induction rels with
  | nil => simp [check_relation_violations]
  | cons a rest ih =>
    simp only [check_relation_violations]
    by_cases ha : a.oppositeRequired
    · have hrows := h a (List.mem_cons_self a rest) ha
      have : (probe m.name a.name ids).head?.isSome = false := by
        simp [hrows]
      simp only [ha, if_true, this]
      simpa using ih fun r hr => h r (List.mem_cons_of_mem a hr)
    · simp only [ha, if_false]
      exact ih fun r hr => h r (List.mem_cons_of_mem a hr)

/-- Trace contributed by the optional existence pre-check of
`execute_nested` when it succeeds. -/
def preTrace : Option RecordFinder → List Statement
  | none => []
  | some rf => [Statement.selectFindId rf]

/-- The successful pre-check contributes no delete statement. -/
lemma preTrace_no_deletes (record_finder : Option RecordFinder) :
    deletesIn (preTrace record_finder) = [] := by
  cases record_finder <;> simp [preTrace, deletesIn, Statement.isDelete]

/-- When the pre-check passes, `execute_nested` is the remaining steps
with the pre-check's read put in front of the trace. -/
lemma execute_nested_of_pre (env : Env) (parent_id : GraphqlId)
    (actions : NestedActions) (record_finder : Option RecordFinder)
    (relation_field : RelationField) (hpre : preCheckOk env record_finder) :
    execute_nested env parent_id actions record_finder relation_field =
      ((nested_after_pre env parent_id actions record_finder relation_field).1,
       preTrace record_finder ++
         (nested_after_pre env parent_id actions record_finder relation_field).2) := by
  cases record_finder with
  | none => rfl
  | some rf =>
    obtain ⟨id0, h⟩ := Option.isSome_iff_exists.mp hpre
    simp [execute_nested, find_id, h, preTrace]

/-- When the explicit pre-check finder matches zero rows,
`execute_nested` stops at the pre-check with NotFound. -/
lemma execute_nested_pre_not_found (env : Env) (parent_id : GraphqlId)
    (actions : NestedActions) (rf : RecordFinder)
    (relation_field : RelationField) (h : env.findId rf = none) :
    execute_nested env parent_id actions (some rf) relation_field =
      (.error (.sql (.RecordNotFoundForWhere ⟨rf.model.name, rf.fieldName, rf.value⟩)),
       [Statement.selectFindId rf]) := by
  simp [execute_nested, find_id, h]

/-- When the parent-scoped lookup fails, the remaining steps stop there
and report the enriched error. -/
lemma nested_after_pre_find_error (env : Env) (parent_id : GraphqlId)
    (actions : NestedActions) (record_finder : Option RecordFinder)
    (relation_field : RelationField) (e : SqlError)
    (h : env.findIdByParent relation_field parent_id record_finder = .error e) :
    nested_after_pre env parent_id actions record_finder relation_field =
      (.error (.sql (enrichNotConnected relation_field parent_id e)),
       [Statement.selectFindIdByParent relation_field.relationName parent_id record_finder]) := by
  simp [nested_after_pre, h]

/-- When the connectivity read returns no row, the remaining steps stop
at the capability check with its not-connected error. -/
lemma nested_after_pre_not_connected (env : Env) (parent_id : GraphqlId)
    (actions : NestedActions) (record_finder : Option RecordFinder)
    (relation_field : RelationField) (child_id : GraphqlId)
    (hfind : env.findIdByParent relation_field parent_id record_finder = .ok child_id)
    (hconn : env.connectedRows parent_id child_id = []) :
    nested_after_pre env parent_id actions record_finder relation_field =
      (.error (.sql (.RecordsNotConnected actions.relationName actions.parentName
         (some actions.parentWhere) actions.childName none)),
       [Statement.selectFindIdByParent relation_field.relationName parent_id record_finder,
        Statement.selectConnected parent_id child_id]) := by
  simp [nested_after_pre, hfind, hconn, NestedActions.check]

/-- When the connectivity read returns a row but the violation checker
fires, the remaining steps stop there with a relation violation and a
trace free of deletes. -/
lemma nested_after_pre_violation (env : Env) (parent_id : GraphqlId)
    (actions : NestedActions) (record_finder : Option RecordFinder)
    (relation_field : RelationField) (child_id : GraphqlId)
    (hfind : env.findIdByParent relation_field parent_id record_finder = .ok child_id)
    (hconn : env.connectedRows parent_id child_id ≠ [])
    (hviol : ∃ r ∈ relation_field.relatedModel.relations, r.oppositeRequired = true ∧
      env.violationProbeRows relation_field.relatedModel.name r.name [child_id] ≠ []) :
    (∃ n, (nested_after_pre env parent_id actions record_finder relation_field).1 =
       .error (.sql (.RelationViolation n))) ∧
    deletesIn (nested_after_pre env parent_id actions record_finder relation_field).2 = [] := by
  obtain ⟨r, hmem, hreq, hrows⟩ := hviol
  obtain ⟨n, hn⟩ := check_relation_violations_error env.violationProbeRows relation_field.relatedModel
    [child_id] relation_field.relatedModel.relations r hmem hreq hrows
  have hnd := check_relation_violations_no_deletes env.violationProbeRows relation_field.relatedModel
    [child_id] relation_field.relatedModel.relations
  have hcheck : actions.check ((env.connectedRows parent_id child_id).head?.isSome) = .ok () := by
    have hs : (env.connectedRows parent_id child_id).head?.isSome = true :=
      (head?_isSome_iff _).mpr hconn
    simp [NestedActions.check, hs]
  rcases hcrv : check_relation_violations env.violationProbeRows relation_field.relatedModel
    [child_id] relation_field.relatedModel.relations with ⟨res, tr⟩
  rw [hcrv] at hn hnd
  simp only at hn hnd
  subst hn
  constructor
  · exact ⟨n, by simp [nested_after_pre, hfind, hcheck, hcrv]⟩
  · simp only [nested_after_pre, hfind, hcheck, hcrv]
    simpa [deletesIn, Statement.isDelete] using hnd

/-- When the finder matches zero rows, `execute` stops at the locator
with NotFound. -/
lemma execute_not_found (env : Env) (rf : RecordFinder)
    (h : env.findRecord rf = none) :
    execute env rf =
      (.error (.sql (.RecordNotFoundForWhere ⟨rf.model.name, rf.fieldName, rf.value⟩)),
       [Statement.selectFindRecord rf]) := by
  simp [execute, find_record, h]

/-- When the located record carries no id value for the model's id
field, `execute` panics (the unwrap on line 18). -/
lemma execute_unwrap_panic (env : Env) (rf : RecordFinder) (record : SingleRecord)
    (hrec : env.findRecord rf = some record)
    (hid : record.get_id_value rf.model = none) :
    execute env rf = (.error .unwrapNonePanic, [Statement.selectFindRecord rf]) := by
  simp [execute, find_record, hrec, hid]

/-- When the violation checker fires, `execute` fails with a relation
violation and its trace holds no delete statement. -/
lemma execute_violation (env : Env) (rf : RecordFinder) (record : SingleRecord)
    (id : GraphqlId)
    (hrec : env.findRecord rf = some record)
    (hid : record.get_id_value rf.model = some id)
    (hviol : ∃ r ∈ rf.model.relations, r.oppositeRequired = true ∧
      env.violationProbeRows rf.model.name r.name [id] ≠ []) :
    (∃ n, (execute env rf).1 = .error (.sql (.RelationViolation n))) ∧
    deletesIn (execute env rf).2 = [] := by
  obtain ⟨r, hmem, hreq, hrows⟩ := hviol
  obtain ⟨n, hn⟩ := check_relation_violations_error env.violationProbeRows rf.model [id]
    rf.model.relations r hmem hreq hrows
  have hnd := check_relation_violations_no_deletes env.violationProbeRows rf.model [id] rf.model.relations
  rcases hcrv : check_relation_violations env.violationProbeRows rf.model [id] rf.model.relations with ⟨res, tr⟩
  rw [hcrv] at hn hnd
  simp only at hn hnd
  subst hn
  constructor
  · exact ⟨n, by simp [execute, find_record, hrec, hid, hcrv]⟩
  · simp only [execute, find_record, hrec, hid, hcrv]
    simpa [deletesIn, Statement.isDelete] using hnd

/-- When every delete statement of the plan succeeds, the delete loop
succeeds and executes exactly the plan. -/
lemma runDeletes_ok (outcome : String → List GraphqlId → Option SqlError)
    (ds : List DeleteStmt)
    (h : ∀ d ∈ ds, outcome d.modelName d.keys = none) :
    runDeletes outcome ds =
      (.ok (), ds.map fun d => Statement.delete d.modelName d.keys) := by
  induction ds with
  | nil => rfl
  | cons d rest ih =>
    have hd := h d (List.mem_cons_self d rest)
    have hrest := ih fun x hx => h x (List.mem_cons_of_mem d hx)
    simp [runDeletes, hd, hrest]

/-- Successful top-level delete: all checks pass, the deletes go
through and the originally located record is returned; the issued
deletes are exactly the built plan for the extracted id. -/
lemma execute_success (env : Env) (rf : RecordFinder) (record : SingleRecord)
    (id : GraphqlId)
    (hrec : env.findRecord rf = some record)
    (hid : record.get_id_value rf.model = some id)
    (hv : ∀ r ∈ rf.model.relations, r.oppositeRequired = true →
      env.violationProbeRows rf.model.name r.name [id] = [])
    (hd : env.deleteOutcome rf.model.name [id] = none) :
    (execute env rf).1 = .ok record ∧
    deletesIn (execute env rf).2 = [Statement.delete rf.model.name [id]] := by
  have hok := check_relation_violations_ok env.violationProbeRows rf.model [id] rf.model.relations hv
  have hnd := check_relation_violations_no_deletes env.violationProbeRows rf.model [id] rf.model.relations
  rcases hcrv : check_relation_violations env.violationProbeRows rf.model [id] rf.model.relations with ⟨res, tr⟩
  rw [hcrv] at hok hnd
  simp only at hok hnd
  subst hok
  have hrun : runDeletes env.deleteOutcome (delete_many rf.model [id]) =
      (.ok (), [Statement.delete rf.model.name [id]]) := by
    have := runDeletes_ok env.deleteOutcome (delete_many rf.model [id]) ?_
    · simpa [delete_many] using this
    · intro d hdm
      simp only [delete_many, List.mem_singleton] at hdm
      subst hdm
      exact hd
  constructor
  · simp [execute, find_record, hrec, hid, hcrv, hrun]
  · simp only [execute, find_record, hrec, hid, hcrv, hrun]
    simp only [deletesIn, List.filter_append] at hnd ⊢
    simp [hnd, deletesIn, Statement.isDelete]

/-- If `execute` returns a record, it is exactly the record that the
initial locator read produced for the finder. -/
lemma execute_ok_record (env : Env) (rf : RecordFinder) (r' : SingleRecord)
    (h : (execute env rf).1 = .ok r') : env.findRecord rf = some r' := by
  rcases hrec : env.findRecord rf with _ | record
  · simp [execute, find_record, hrec] at h
  · rcases hid : record.get_id_value rf.model with _ | id
    · simp [execute, find_record, hrec, hid] at h
    · rcases hcrv : check_relation_violations env.violationProbeRows rf.model [id]
        rf.model.relations with ⟨res, tr⟩
      rcases res with e | u
      · simp [execute, find_record, hrec, hid, hcrv] at h
      · rcases hrun : runDeletes env.deleteOutcome (delete_many rf.model [id]) with ⟨res2, tr3⟩
        rcases res2 with e2 | u2
        · simp [execute, find_record, hrec, hid, hcrv, hrun] at h
        · simp [execute, find_record, hrec, hid, hcrv, hrun] at h
          rw [h]

/-- Successful run of the steps after the pre-check: the child found by
the parent-scoped lookup passes connectivity and violation checks, and
the issued deletes are exactly the plan built for that child on the
related model. -/
lemma nested_after_pre_success (env : Env) (parent_id : GraphqlId)
    (actions : NestedActions) (record_finder : Option RecordFinder)
    (relation_field : RelationField) (child_id : GraphqlId)
    (hfind : env.findIdByParent relation_field parent_id record_finder = .ok child_id)
    (hconn : env.connectedRows parent_id child_id ≠ [])
    (hv : ∀ r ∈ relation_field.relatedModel.relations, r.oppositeRequired = true →
      env.violationProbeRows relation_field.relatedModel.name r.name [child_id] = [])
    (hd : env.deleteOutcome relation_field.relatedModel.name [child_id] = none) :
    (nested_after_pre env parent_id actions record_finder relation_field).1 = .ok () ∧
    deletesIn (nested_after_pre env parent_id actions record_finder relation_field).2 =
      [Statement.delete relation_field.relatedModel.name [child_id]] := by
  have hcheck : actions.check ((env.connectedRows parent_id child_id).head?.isSome) = .ok () := by
    have hs : (env.connectedRows parent_id child_id).head?.isSome = true :=
      (head?_isSome_iff _).mpr hconn
    simp [NestedActions.check, hs]
  have hok := check_relation_violations_ok env.violationProbeRows relation_field.relatedModel [child_id]
    relation_field.relatedModel.relations hv
  have hnd := check_relation_violations_no_deletes env.violationProbeRows relation_field.relatedModel
    [child_id] relation_field.relatedModel.relations
  rcases hcrv : check_relation_violations env.violationProbeRows relation_field.relatedModel [child_id]
    relation_field.relatedModel.relations with ⟨res, tr⟩
  rw [hcrv] at hok hnd
  simp only at hok hnd
  subst hok
  have hrun : runDeletes env.deleteOutcome (delete_many relation_field.relatedModel [child_id]) =
      (.ok (), [Statement.delete relation_field.relatedModel.name [child_id]]) := by
    have := runDeletes_ok env.deleteOutcome (delete_many relation_field.relatedModel [child_id]) ?_
    · simpa [delete_many] using this
    · intro d hdm
      simp only [delete_many, List.mem_singleton] at hdm
      subst hdm
      exact hd
  constructor
  · simp [nested_after_pre, hfind, hcheck, hcrv, hrun]
  · simp only [nested_after_pre, hfind, hcheck, hcrv, hrun]
    simp only [deletesIn, List.filter_append] at hnd ⊢
    simp [hnd, deletesIn, Statement.isDelete]

/-- Whether a statement is the top-level locator read. -/
def Statement.isFindRecordRead : Statement → Bool
  | .selectFindRecord _ => true
  | _ => false

/-- Every statement the violation checker issues is a probe read for
the given model and candidate keys. -/
lemma check_relation_violations_probe_stmts
    (probe : String → String → List GraphqlId → List GraphqlId) (m : Model)
    (ids : List GraphqlId) (rels : List Relation) :
    ∀ s ∈ (check_relation_violations probe m ids rels).2,
      ∃ rn, s = Statement.selectViolationProbe m.name rn ids := by
  induction rels with
  | nil => intro s hs; simp [check_relation_violations] at hs
  | cons r rest ih =>
    intro s hs
    simp only [check_relation_violations] at hs
    by_cases hr : r.oppositeRequired
    · by_cases hp : (probe m.name r.name ids).head?.isSome
      · simp [hr, hp] at hs
        exact ⟨r.name, hs⟩
      · simp [hr, hp] at hs
        rcases hs with hs | hs
        · exact ⟨r.name, hs⟩
        · exact ih s hs
    · simp [hr] at hs
      exact ih s hs

/-- Every statement the delete loop issues is a delete from the plan. -/
lemma runDeletes_delete_stmts (outcome : String → List GraphqlId → Option SqlError)
    (ds : List DeleteStmt) :
    ∀ s ∈ (runDeletes outcome ds).2,
      ∃ d ∈ ds, s = Statement.delete d.modelName d.keys := by
  induction ds with
  | nil => intro s hs; simp [runDeletes] at hs
  | cons d rest ih =>
    intro s hs
    simp only [runDeletes] at hs
    rcases hout : outcome d.modelName d.keys with _ | e
    · rw [hout] at hs
      simp at hs
      rcases hs with hs | hs
      · exact ⟨d, List.mem_cons_self d rest, hs⟩
      · obtain ⟨d0, hd0, hseq⟩ := ih s hs
        exact ⟨d0, List.mem_cons_of_mem d hd0, hseq⟩
    · rw [hout] at hs
      simp at hs
      exact ⟨d, List.mem_cons_self d rest, hs⟩

/-- Shape of a successful `execute` run: the locator read comes first,
then only violation probes for the extracted id, then only deletes of
the built plan; the returned record is the locator's. -/
lemma execute_ok_shape (env : Env) (rf : RecordFinder) (r' : SingleRecord)
    (h : (execute env rf).1 = .ok r') :
    env.findRecord rf = some r' ∧
    ∃ id tr₂ tr₃, r'.get_id_value rf.model = some id ∧
      (execute env rf).2 = Statement.selectFindRecord rf :: (tr₂ ++ tr₃) ∧
      (∀ s ∈ tr₂, ∃ rn, s = Statement.selectViolationProbe rf.model.name rn [id]) ∧
      (∀ s ∈ tr₃, ∃ d ∈ delete_many rf.model [id], s = Statement.delete d.modelName d.keys) := by
  rcases hrec : env.findRecord rf with _ | record
  · simp [execute, find_record, hrec] at h
  · rcases hid : record.get_id_value rf.model with _ | id
    · simp [execute, find_record, hrec, hid] at h
    · rcases hcrv : check_relation_violations env.violationProbeRows rf.model [id]
        rf.model.relations with ⟨res, tr⟩
      rcases res with e | u
      · simp [execute, find_record, hrec, hid, hcrv] at h
      · rcases hrun : runDeletes env.deleteOutcome (delete_many rf.model [id])
          with ⟨res2, tr3⟩
        rcases res2 with e2 | u2
        · simp [execute, find_record, hrec, hid, hcrv, hrun] at h
        · simp [execute, find_record, hrec, hid, hcrv, hrun] at h
          subst h
          refine ⟨rfl, id, tr, tr3, hid, ?_, ?_, ?_⟩
          · simp [execute, find_record, hrec, hid, hcrv, hrun]
          · have := check_relation_violations_probe_stmts env.violationProbeRows
              rf.model [id] rf.model.relations
            rw [hcrv] at this
            exact this
          · have := runDeletes_delete_stmts env.deleteOutcome (delete_many rf.model [id])
            rw [hrun] at this
            exact this

/-- Shape of a successful run of the steps after the pre-check: the
parent-scoped lookup read, the connectivity read for the resolved child,
violation probes on the related model for that child only, and exactly
the built delete plan for that child. -/
lemma nested_after_pre_success_trace (env : Env) (parent_id : GraphqlId)
    (actions : NestedActions) (record_finder : Option RecordFinder)
    (relation_field : RelationField) (child_id : GraphqlId)
    (hfind : env.findIdByParent relation_field parent_id record_finder = .ok child_id)
    (hconn : env.connectedRows parent_id child_id ≠ [])
    (hv : ∀ r ∈ relation_field.relatedModel.relations, r.oppositeRequired = true →
      env.violationProbeRows relation_field.relatedModel.name r.name [child_id] = [])
    (hd : env.deleteOutcome relation_field.relatedModel.name [child_id] = none) :
    ∃ probes,
      nested_after_pre env parent_id actions record_finder relation_field =
        (.ok (), Statement.selectFindIdByParent relation_field.relationName
           parent_id record_finder ::
         Statement.selectConnected parent_id child_id ::
         (probes ++ [Statement.delete relation_field.relatedModel.name [child_id]])) ∧
      ∀ s ∈ probes, ∃ rn,
        s = Statement.selectViolationProbe relation_field.relatedModel.name rn [child_id] := by
  have hcheck : actions.check ((env.connectedRows parent_id child_id).head?.isSome) = .ok () := by
    have hs : (env.connectedRows parent_id child_id).head?.isSome = true :=
      (head?_isSome_iff _).mpr hconn
    simp [NestedActions.check, hs]
  have hok := check_relation_violations_ok env.violationProbeRows
    relation_field.relatedModel [child_id] relation_field.relatedModel.relations hv
  have hstmts := check_relation_violations_probe_stmts env.violationProbeRows
    relation_field.relatedModel [child_id] relation_field.relatedModel.relations
  rcases hcrv : check_relation_violations env.violationProbeRows
    relation_field.relatedModel [child_id] relation_field.relatedModel.relations
    with ⟨res, tr⟩
  rw [hcrv] at hok hstmts
  simp only at hok hstmts
  subst hok
  have hrun : runDeletes env.deleteOutcome (delete_many relation_field.relatedModel [child_id]) =
      (.ok (), [Statement.delete relation_field.relatedModel.name [child_id]]) := by
    have := runDeletes_ok env.deleteOutcome (delete_many relation_field.relatedModel [child_id]) ?_
    · simpa [delete_many] using this
    · intro d hdm
      simp only [delete_many, List.mem_singleton] at hdm
      subst hdm
      exact hd
  exact ⟨tr, by simp [nested_after_pre, hfind, hcheck, hcrv, hrun], hstmts⟩

/-- The steps after the pre-check never read the pre-check oracle: two
environments that differ only in `findId` run them identically. -/
lemma nested_after_pre_congr (env env₂ : Env) (parent_id : GraphqlId)
    (actions : NestedActions) (record_finder : Option RecordFinder)
    (relation_field : RelationField)
    (h1 : env₂.findIdByParent = env.findIdByParent)
    (h2 : env₂.connectedRows = env.connectedRows)
    (h3 : env₂.violationProbeRows = env.violationProbeRows)
    (h4 : env₂.deleteOutcome = env.deleteOutcome) :
    nested_after_pre env₂ parent_id actions record_finder relation_field =
      nested_after_pre env parent_id actions record_finder relation_field := by
  simp only [nested_after_pre, h1, h2, h3, h4]

/-- Decidable equality on `Except`, so witnesses can be checked by
evaluation. -/
instance {ε α : Type} [DecidableEq ε] [DecidableEq α] : DecidableEq (Except ε α) := fun x y =>
  match x, y with
  | .ok a, .ok b =>
    if h : a = b then .isTrue (by rw [h]) else .isFalse (by intro hc; cases hc; exact h rfl)
  | .error a, .error b =>
    if h : a = b then .isTrue (by rw [h]) else .isFalse (by intro hc; cases hc; exact h rfl)
  | .ok _, .error _ => .isFalse (by intro hc; cases hc)
  | .error _, .ok _ => .isFalse (by intro hc; cases hc)

/-! Concrete fixtures used by the witnesses: a `User` model with a
required `posts` relation, a `Post` child model with a required
`comments` relation, and the relation field from `User` to `Post`. -/

def userModel : Model := ⟨"User", "id", [⟨"posts", true⟩]⟩

def postModel : Model := ⟨"Post", "id", [⟨"comments", true⟩]⟩

def userPosts : RelationField := ⟨"posts", userModel, postModel⟩

def userFinder : RecordFinder := ⟨userModel, "id", 1⟩

def userFinder2 : RecordFinder := ⟨userModel, "id", 2⟩

def userRecord : SingleRecord := ⟨[("id", 1)]⟩

def userRecord2 : SingleRecord := ⟨[("id", 2)]⟩

def postsActions : NestedActions := ⟨"posts", "User", ⟨"User", "id", 1⟩, "Post"⟩

/-- Claims C1: a database in which every violation probe finds a
dependent row. -/
def violationEnv : Env where
  findRecord := fun _ => some userRecord
  findId := fun _ => some 7
  findIdByParent := fun _ _ _ => .ok 5
  connectedRows := fun _ _ => [9]
  violationProbeRows := fun _ _ _ => [3]
  deleteOutcome := fun _ _ => none

/-- C1: for every model with at least one required relation pointing at
the resolved candidate key, if the relation-violation probe returns at
least one dependent row, then both `execute` and `execute_nested` fail
with `RelationViolation` and issue no delete statements (the probe runs
before any delete is executed). -/
theorem execute_and_nested_reject_relation_violation
    (env : Env) (rf : RecordFinder) (record : SingleRecord) (id : GraphqlId)
    (parent_id : GraphqlId) (actions : NestedActions)
    (record_finder : Option RecordFinder) (relation_field : RelationField)
    (child_id : GraphqlId)
    (hrec : env.findRecord rf = some record)
    (hid : record.get_id_value rf.model = some id)
    (hviol : ∃ r ∈ rf.model.relations, r.oppositeRequired = true ∧
      env.violationProbeRows rf.model.name r.name [id] ≠ [])
    (hpre : preCheckOk env record_finder)
    (hfind : env.findIdByParent relation_field parent_id record_finder = .ok child_id)
    (hconn : env.connectedRows parent_id child_id ≠ [])
    (hviol' : ∃ r ∈ relation_field.relatedModel.relations, r.oppositeRequired = true ∧
      env.violationProbeRows relation_field.relatedModel.name r.name [child_id] ≠ []) :
    (∃ n, (execute env rf).1 = .error (.sql (.RelationViolation n))) ∧
    deletesIn (execute env rf).2 = [] ∧
    (∃ n, (execute_nested env parent_id actions record_finder relation_field).1 =
      .error (.sql (.RelationViolation n))) ∧
    deletesIn (execute_nested env parent_id actions record_finder relation_field).2 = [] := by
  obtain ⟨h1, h2⟩ := execute_violation env rf record id hrec hid hviol
  obtain ⟨h3, h4⟩ := nested_after_pre_violation env parent_id actions record_finder
    relation_field child_id hfind hconn hviol'
  have hne := execute_nested_of_pre env parent_id actions record_finder relation_field hpre
  refine ⟨h1, h2, ?_, ?_⟩
  · obtain ⟨n, hn⟩ := h3
    exact ⟨n, by rw [hne]; exact hn⟩
  · rw [hne]
    have hp := preTrace_no_deletes record_finder
    simp only [deletesIn, List.filter_append] at hp h4 ⊢
    simp [hp, h4]

/-- Witness for C1 at the concrete fixtures. -/
theorem execute_and_nested_reject_relation_violation_witness :
    (∃ n, (execute violationEnv userFinder).1 = .error (.sql (.RelationViolation n))) ∧
    deletesIn (execute violationEnv userFinder).2 = [] ∧
    (∃ n, (execute_nested violationEnv 1 postsActions (some userFinder) userPosts).1 =
      .error (.sql (.RelationViolation n))) ∧
    deletesIn (execute_nested violationEnv 1 postsActions (some userFinder) userPosts).2 = [] :=
  execute_and_nested_reject_relation_violation violationEnv userFinder userRecord 1 1
    postsActions (some userFinder) userPosts 5 rfl (by decide) (by decide) rfl rfl
    (by decide) (by decide)

/-- Claims C2 and C6: a database with no rows at all. -/
def emptyEnv : Env where
  findRecord := fun _ => none
  findId := fun _ => none
  findIdByParent := fun _ _ _ => .ok 5
  connectedRows := fun _ _ => []
  violationProbeRows := fun _ _ _ => []
  deleteOutcome := fun _ _ => none

/-- C2: for every finder that matches zero rows, `execute` returns
NotFound and issues no delete statements, and `execute_nested` with
that finder as its explicit finder likewise returns NotFound and issues
no delete statements. -/
theorem zero_row_finder_returns_not_found
    (env : Env) (rf : RecordFinder) (parent_id : GraphqlId)
    (actions : NestedActions) (relation_field : RelationField)
    (hrec : env.findRecord rf = none)
    (hfid : env.findId rf = none) :
    (execute env rf).1 =
      .error (.sql (.RecordNotFoundForWhere ⟨rf.model.name, rf.fieldName, rf.value⟩)) ∧
    deletesIn (execute env rf).2 = [] ∧
    (execute_nested env parent_id actions (some rf) relation_field).1 =
      .error (.sql (.RecordNotFoundForWhere ⟨rf.model.name, rf.fieldName, rf.value⟩)) ∧
    deletesIn (execute_nested env parent_id actions (some rf) relation_field).2 = [] := by
  rw [execute_not_found env rf hrec,
    execute_nested_pre_not_found env parent_id actions rf relation_field hfid]
  exact ⟨rfl, by simp [deletesIn, Statement.isDelete], rfl,
    by simp [deletesIn, Statement.isDelete]⟩

/-- Witness for C2 at the concrete fixtures. -/
theorem zero_row_finder_returns_not_found_witness :
    (execute emptyEnv userFinder).1 =
      .error (.sql (.RecordNotFoundForWhere ⟨userModel.name, "id", 1⟩)) ∧
    deletesIn (execute emptyEnv userFinder).2 = [] ∧
    (execute_nested emptyEnv 1 postsActions (some userFinder) userPosts).1 =
      .error (.sql (.RecordNotFoundForWhere ⟨userModel.name, "id", 1⟩)) ∧
    deletesIn (execute_nested emptyEnv 1 postsActions (some userFinder) userPosts).2 = [] :=
  zero_row_finder_returns_not_found emptyEnv userFinder 1 postsActions userPosts rfl rfl

/-- Claims C3, C8 and C10: a database where every lookup succeeds and
nothing blocks the delete. -/
def snapshotEnv : Env where
  findRecord := fun _ => some userRecord
  findId := fun _ => some 1
  findIdByParent := fun _ _ _ => .ok 5
  connectedRows := fun _ _ => [9]
  violationProbeRows := fun _ _ _ => []
  deleteOutcome := fun _ _ => none

/-- C3: for every successful top-level delete, `execute` returns the
record it located before the deletion: the returned record is exactly
what the initial locator read produced, and that locator read is the
only record read in the whole trace (no re-read after deletion). -/
theorem execute_returns_pre_deletion_snapshot
    (env : Env) (rf : RecordFinder) (r' : SingleRecord)
    (h : (execute env rf).1 = .ok r') :
    env.findRecord rf = some r' ∧
    (execute env rf).2.countP Statement.isFindRecordRead = 1 := by
  obtain ⟨h1, id, tr₂, tr₃, hid, htr, hp2, hp3⟩ := execute_ok_shape env rf r' h
  refine ⟨h1, ?_⟩
  have h2 : tr₂.countP Statement.isFindRecordRead = 0 := by
    rw [List.countP_eq_zero]
    intro s hs
    obtain ⟨rn, rfl⟩ := hp2 s hs
    simp [Statement.isFindRecordRead]
  have h3 : tr₃.countP Statement.isFindRecordRead = 0 := by
    rw [List.countP_eq_zero]
    intro s hs
    obtain ⟨d, hd, rfl⟩ := hp3 s hs
    simp [Statement.isFindRecordRead]
  rw [htr]
  simp [List.countP_cons, List.countP_append, h2, h3, Statement.isFindRecordRead]

/-- Witness for C3 at the concrete fixtures. -/
theorem execute_returns_pre_deletion_snapshot_witness :
    snapshotEnv.findRecord userFinder = some userRecord ∧
    (execute snapshotEnv userFinder).2.countP Statement.isFindRecordRead = 1 :=
  execute_returns_pre_deletion_snapshot snapshotEnv userFinder userRecord (by decide)

/-- Claim C4: the parent-scoped lookup fails without parent
identification. -/
def bareNotConnectedEnv : Env where
  findRecord := fun _ => none
  findId := fun _ => some 7
  findIdByParent := fun _ _ _ => .error (.RecordsNotConnected "posts" "User" none "Post" none)
  connectedRows := fun _ _ => []
  violationProbeRows := fun _ _ _ => []
  deleteOutcome := fun _ _ => none

/-- Claim C4: the parent-scoped lookup fails with an unrelated error. -/
def transportErrorEnv : Env where
  findRecord := fun _ => none
  findId := fun _ => some 7
  findIdByParent := fun _ _ _ => .error (.QueryError "boom")
  connectedRows := fun _ _ => []
  violationProbeRows := fun _ _ _ => []
  deleteOutcome := fun _ _ => none

/-- C4: in `execute_nested`, a `RecordsNotConnected` failure of the
parent-scoped child lookup that lacks parent identification is
re-raised with a parent locator (parent model plus parent id) attached,
and every error of any other kind passes through unchanged. -/
theorem nested_lookup_error_enrichment
    (env : Env) (parent_id : GraphqlId) (actions : NestedActions)
    (record_finder : Option RecordFinder) (relation_field : RelationField)
    (e : SqlError)
    (hpre : preCheckOk env record_finder)
    (hfind : env.findIdByParent relation_field parent_id record_finder = .error e) :
    (∀ rn pn cn cw, e = .RecordsNotConnected rn pn none cn cw →
      (execute_nested env parent_id actions record_finder relation_field).1 =
        .error (.sql (.RecordsNotConnected rn pn
          (some (RecordFinderInfo.for_id relation_field.model parent_id)) cn cw))) ∧
    (e.isRecordsNotConnected = false →
      (execute_nested env parent_id actions record_finder relation_field).1 =
        .error (.sql e)) := by
  have hne := execute_nested_of_pre env parent_id actions record_finder relation_field hpre
  have hshape := nested_after_pre_find_error env parent_id actions record_finder
    relation_field e hfind
  constructor
  · rintro rn pn cn cw rfl
    rw [hne, hshape]
    simp [enrichNotConnected]
  · intro hnot
    have henr : enrichNotConnected relation_field parent_id e = e := by
      cases e <;> first
        | rfl
        | simp [SqlError.isRecordsNotConnected] at hnot
    rw [hne, hshape, henr]

/-- Witness for C4: the bare not-connected error gains the parent
locator, while a transport error passes through unchanged. -/
theorem nested_lookup_error_enrichment_witness :
    (execute_nested bareNotConnectedEnv 1 postsActions none userPosts).1 =
      .error (.sql (.RecordsNotConnected "posts" "User"
        (some (RecordFinderInfo.for_id userModel 1)) "Post" none)) ∧
    (execute_nested transportErrorEnv 1 postsActions none userPosts).1 =
      .error (.sql (.QueryError "boom")) :=
  ⟨(nested_lookup_error_enrichment bareNotConnectedEnv 1 postsActions none userPosts
      (.RecordsNotConnected "posts" "User" none "Post" none) trivial rfl).1
      "posts" "User" "Post" none rfl,
   (nested_lookup_error_enrichment transportErrorEnv 1 postsActions none userPosts
      (.QueryError "boom") trivial rfl).2 rfl⟩

/-- Claim C5: the child resolves but the connectivity read returns no
row. -/
def notConnectedEnv : Env where
  findRecord := fun _ => none
  findId := fun _ => some 7
  findIdByParent := fun _ _ _ => .ok 5
  connectedRows := fun _ _ => []
  violationProbeRows := fun _ _ _ => []
  deleteOutcome := fun _ _ => none

/-- C5: for every (parent key, child key) pair for which the
connectivity read returns no row, `execute_nested` fails with the
`RecordsNotConnected` error produced by the capability's check
function, carrying the relation name and a non-empty parent descriptor,
and issues no delete statements. -/
theorem nested_not_connected_rejected
    (env : Env) (parent_id : GraphqlId) (actions : NestedActions)
    (record_finder : Option RecordFinder) (relation_field : RelationField)
    (child_id : GraphqlId)
    (hpre : preCheckOk env record_finder)
    (hfind : env.findIdByParent relation_field parent_id record_finder = .ok child_id)
    (hconn : env.connectedRows parent_id child_id = []) :
    (execute_nested env parent_id actions record_finder relation_field).1 =
      .error (.sql (.RecordsNotConnected actions.relationName actions.parentName
        (some actions.parentWhere) actions.childName none)) ∧
    deletesIn (execute_nested env parent_id actions record_finder relation_field).2 = [] := by
  have hne := execute_nested_of_pre env parent_id actions record_finder relation_field hpre
  have hshape := nested_after_pre_not_connected env parent_id actions record_finder
    relation_field child_id hfind hconn
  constructor
  · rw [hne, hshape]
  · rw [hne, hshape]
    have hp := preTrace_no_deletes record_finder
    simp only [deletesIn, List.filter_append] at hp ⊢
    simp [hp, Statement.isDelete]

/-- Witness for C5 at the concrete fixtures. -/
theorem nested_not_connected_rejected_witness :
    (execute_nested notConnectedEnv 1 postsActions (some userFinder) userPosts).1 =
      .error (.sql (.RecordsNotConnected "posts" "User"
        (some ⟨"User", "id", 1⟩) "Post" none)) ∧
    deletesIn (execute_nested notConnectedEnv 1 postsActions (some userFinder) userPosts).2 = [] :=
  nested_not_connected_rejected notConnectedEnv 1 postsActions (some userFinder)
    userPosts 5 rfl rfl rfl

/-- C6: in `execute_nested` with an explicit finder, the existence-only
pre-check of that finder runs before the parent-scoped resolution (it
is the first statement executed), so a finder matching zero rows
reports a generic not-found error rather than a not-connected error,
before any connectivity check is performed. -/
theorem explicit_finder_pre_check_first
    (env : Env) (parent_id : GraphqlId) (actions : NestedActions)
    (rf : RecordFinder) (relation_field : RelationField) :
    ((execute_nested env parent_id actions (some rf) relation_field).2.head? =
      some (Statement.selectFindId rf)) ∧
    (env.findId rf = none →
      (execute_nested env parent_id actions (some rf) relation_field).1 =
        .error (.sql (.RecordNotFoundForWhere ⟨rf.model.name, rf.fieldName, rf.value⟩)) ∧
      (execute_nested env parent_id actions (some rf) relation_field).2 =
        [Statement.selectFindId rf] ∧
      ∀ p c, Statement.selectConnected p c ∉
        (execute_nested env parent_id actions (some rf) relation_field).2) := by
  constructor
  · rcases hfid : env.findId rf with _ | id0
    · rw [execute_nested_pre_not_found env parent_id actions rf relation_field hfid]
      rfl
    · have hpre : preCheckOk env (some rf) := by simp [preCheckOk, hfid]
      rw [execute_nested_of_pre env parent_id actions (some rf) relation_field hpre]
      rfl
  · intro hfid
    rw [execute_nested_pre_not_found env parent_id actions rf relation_field hfid]
    refine ⟨rfl, rfl, ?_⟩
    intro p c hmem
    simp at hmem

/-- Witness for C6 at the concrete fixtures. -/
theorem explicit_finder_pre_check_first_witness :
    ((execute_nested emptyEnv 1 postsActions (some userFinder) userPosts).2.head? =
      some (Statement.selectFindId userFinder)) ∧
    ((execute_nested emptyEnv 1 postsActions (some userFinder) userPosts).1 =
      .error (.sql (.RecordNotFoundForWhere ⟨userModel.name, "id", 1⟩)) ∧
     (execute_nested emptyEnv 1 postsActions (some userFinder) userPosts).2 =
      [Statement.selectFindId userFinder] ∧
     ∀ p c, Statement.selectConnected p c ∉
      (execute_nested emptyEnv 1 postsActions (some userFinder) userPosts).2) :=
  ⟨(explicit_finder_pre_check_first emptyEnv 1 postsActions userFinder userPosts).1,
   (explicit_finder_pre_check_first emptyEnv 1 postsActions userFinder userPosts).2 rfl⟩

/-- Claim C7: a database in which each step of the two workflows can be
made to fail or succeed by choice of finder value and parent id: a
finder with value 2 resolves, other finders match nothing; parent id 1
makes the parent-scoped lookup fail with a transport error, parent id 2
resolves a child whose connectivity read is empty, parent id 3 resolves
a child whose violation probe fires, and parent id 4 resolves a child
that deletes cleanly. -/
def stepFailEnv : Env where
  findRecord := fun f => if f.value = 2 then some userRecord2 else none
  findId := fun f => if f.value = 2 then some 7 else none
  findIdByParent := fun _ pid _ =>
    if pid = 1 then .error (.QueryError "boom")
    else if pid = 2 then .ok 5
    else if pid = 3 then .ok 6
    else .ok 7
  connectedRows := fun p _ => if p = 2 then [] else [9]
  violationProbeRows := fun mn _ ks =>
    if mn = "User" then [3] else if ks = [6] then [3] else []
  deleteOutcome := fun _ _ => none

/-- C7: every step of both `execute` and `execute_nested`
short-circuits the remaining workflow on its first error: once a step
fails, no further read, check, or delete statement is executed (the
trace ends at the failing step), so no deletes are attempted after a
failed check; and on full success `execute_nested` returns success with
no payload. -/
theorem steps_short_circuit
    (env : Env) (rf : RecordFinder) (parent_id : GraphqlId)
    (actions : NestedActions) (record_finder : Option RecordFinder)
    (relation_field : RelationField) :
    (env.findRecord rf = none →
      (execute env rf).2 = [Statement.selectFindRecord rf]) ∧
    (∀ record id, env.findRecord rf = some record →
      record.get_id_value rf.model = some id →
      (∃ r ∈ rf.model.relations, r.oppositeRequired = true ∧
        env.violationProbeRows rf.model.name r.name [id] ≠ []) →
      deletesIn (execute env rf).2 = []) ∧
    (∀ rf₀, record_finder = some rf₀ → env.findId rf₀ = none →
      (execute_nested env parent_id actions record_finder relation_field).2 =
        [Statement.selectFindId rf₀]) ∧
    (∀ e, preCheckOk env record_finder →
      env.findIdByParent relation_field parent_id record_finder = .error e →
      (execute_nested env parent_id actions record_finder relation_field).2 =
        preTrace record_finder ++
          [Statement.selectFindIdByParent relation_field.relationName parent_id record_finder]) ∧
    (∀ child_id, preCheckOk env record_finder →
      env.findIdByParent relation_field parent_id record_finder = .ok child_id →
      env.connectedRows parent_id child_id = [] →
      (execute_nested env parent_id actions record_finder relation_field).2 =
        preTrace record_finder ++
          [Statement.selectFindIdByParent relation_field.relationName parent_id record_finder,
           Statement.selectConnected parent_id child_id]) ∧
    (∀ child_id, preCheckOk env record_finder →
      env.findIdByParent relation_field parent_id record_finder = .ok child_id →
      env.connectedRows parent_id child_id ≠ [] →
      (∃ r ∈ relation_field.relatedModel.relations, r.oppositeRequired = true ∧
        env.violationProbeRows relation_field.relatedModel.name r.name [child_id] ≠ []) →
      deletesIn (execute_nested env parent_id actions record_finder relation_field).2 = []) ∧
    (∀ child_id, preCheckOk env record_finder →
      env.findIdByParent relation_field parent_id record_finder = .ok child_id →
      env.connectedRows parent_id child_id ≠ [] →
      (∀ r ∈ relation_field.relatedModel.relations, r.oppositeRequired = true →
        env.violationProbeRows relation_field.relatedModel.name r.name [child_id] = []) →
      env.deleteOutcome relation_field.relatedModel.name [child_id] = none →
      (execute_nested env parent_id actions record_finder relation_field).1 = .ok ()) := by
  refine ⟨?_, ?_, ?_, ?_, ?_, ?_, ?_⟩
  · intro h
    rw [execute_not_found env rf h]
  · intro record id h1 h2 h3
    exact (execute_violation env rf record id h1 h2 h3).2
  · rintro rf₀ rfl h
    rw [execute_nested_pre_not_found env parent_id actions rf₀ relation_field h]
  · intro e hpre hf
    rw [execute_nested_of_pre env parent_id actions record_finder relation_field hpre,
      nested_after_pre_find_error env parent_id actions record_finder relation_field e hf]
  · intro child_id hpre hf hc
    rw [execute_nested_of_pre env parent_id actions record_finder relation_field hpre,
      nested_after_pre_not_connected env parent_id actions record_finder relation_field
        child_id hf hc]
  · intro child_id hpre hf hc hviol
    have h := (nested_after_pre_violation env parent_id actions record_finder
      relation_field child_id hf hc hviol).2
    rw [execute_nested_of_pre env parent_id actions record_finder relation_field hpre]
    have hp := preTrace_no_deletes record_finder
    simp only [deletesIn, List.filter_append] at hp h ⊢
    simp [hp, h]
  · intro child_id hpre hf hc hv hd
    have h := (nested_after_pre_success env parent_id actions record_finder
      relation_field child_id hf hc hv hd).1
    rw [execute_nested_of_pre env parent_id actions record_finder relation_field hpre]
    exact h

/-- Witness for C7: each step of the two workflows exercised at the
concrete fixtures. -/
theorem steps_short_circuit_witness :
    (execute stepFailEnv userFinder).2 = [Statement.selectFindRecord userFinder] ∧
    deletesIn (execute stepFailEnv userFinder2).2 = [] ∧
    (execute_nested stepFailEnv 1 postsActions (some userFinder) userPosts).2 =
      [Statement.selectFindId userFinder] ∧
    (execute_nested stepFailEnv 1 postsActions (some userFinder2) userPosts).2 =
      preTrace (some userFinder2) ++
        [Statement.selectFindIdByParent userPosts.relationName 1 (some userFinder2)] ∧
    (execute_nested stepFailEnv 2 postsActions (some userFinder2) userPosts).2 =
      preTrace (some userFinder2) ++
        [Statement.selectFindIdByParent userPosts.relationName 2 (some userFinder2),
         Statement.selectConnected 2 5] ∧
    deletesIn (execute_nested stepFailEnv 3 postsActions (some userFinder2) userPosts).2 = [] ∧
    (execute_nested stepFailEnv 4 postsActions (some userFinder2) userPosts).1 = .ok () :=
  ⟨(steps_short_circuit stepFailEnv userFinder 1 postsActions none userPosts).1 rfl,
   (steps_short_circuit stepFailEnv userFinder2 1 postsActions none userPosts).2.1
     userRecord2 2 rfl (by decide) (by decide),
   (steps_short_circuit stepFailEnv userFinder 1 postsActions (some userFinder)
     userPosts).2.2.1 userFinder rfl rfl,
   (steps_short_circuit stepFailEnv userFinder 1 postsActions (some userFinder2)
     userPosts).2.2.2.1 (.QueryError "boom") rfl rfl,
   (steps_short_circuit stepFailEnv userFinder 2 postsActions (some userFinder2)
     userPosts).2.2.2.2.1 5 rfl rfl rfl,
   (steps_short_circuit stepFailEnv userFinder 3 postsActions (some userFinder2)
     userPosts).2.2.2.2.2.1 6 rfl rfl (by decide) (by decide),
   (steps_short_circuit stepFailEnv userFinder 4 postsActions (some userFinder2)
     userPosts).2.2.2.2.2.2 7 rfl rfl (by decide) (by decide) rfl⟩

/-- Finder for the child `Post` row with key 5, used by claim C8. -/
def postFinder : RecordFinder := ⟨postModel, "id", 5⟩

/-- Claim C8: a consistent database in which the explicit finder and
the parent-scoped lookup both resolve the same child key 5. -/
def doubleLookupEnv : Env where
  findRecord := fun _ => some userRecord
  findId := fun _ => some 5
  findIdByParent := fun _ _ _ => .ok 5
  connectedRows := fun _ _ => [9]
  violationProbeRows := fun _ _ _ => []
  deleteOutcome := fun _ _ => none

/-- C8 counterexample: with an explicit finder, one call of
`execute_nested` looks the child's key up twice, from two different
sources — the existence pre-check read (`find_id` on the finder) and
the parent-scoped lookup (`find_id_by_parent`) — both returning the
same key 5, and both reads appear in the trace of the single call. -/
theorem key_lookup_twice_counterexample :
    doubleLookupEnv.findId postFinder = some 5 ∧
    doubleLookupEnv.findIdByParent userPosts 1 (some postFinder) = .ok 5 ∧
    Statement.selectFindId postFinder ∈
      (execute_nested doubleLookupEnv 1 postsActions (some postFinder) userPosts).2 ∧
    Statement.selectFindIdByParent "posts" 1 (some postFinder) ∈
      (execute_nested doubleLookupEnv 1 postsActions (some postFinder) userPosts).2 := by
  decide

/-- The trace of `execute`, on any path past the id extraction, is the
single locator read followed only by violation probes for the extracted
id and deletes of the built plan for that id. -/
lemma execute_trace_shape (env : Env) (rf : RecordFinder) (record : SingleRecord)
    (id : GraphqlId)
    (hrec : env.findRecord rf = some record)
    (hid : record.get_id_value rf.model = some id) :
    ∃ tail, (execute env rf).2 = Statement.selectFindRecord rf :: tail ∧
      ∀ s ∈ tail,
        (∃ rn, s = Statement.selectViolationProbe rf.model.name rn [id]) ∨
        s = Statement.delete rf.model.name [id] := by
  have hprobe := check_relation_violations_probe_stmts env.violationProbeRows
    rf.model [id] rf.model.relations
  have hdel := runDeletes_delete_stmts env.deleteOutcome (delete_many rf.model [id])
  rcases hcrv : check_relation_violations env.violationProbeRows rf.model [id]
    rf.model.relations with ⟨res, tr₂⟩
  rcases hrun : runDeletes env.deleteOutcome (delete_many rf.model [id]) with ⟨res₂, tr₃⟩
  rw [hcrv] at hprobe
  rw [hrun] at hdel
  simp only at hprobe hdel
  have hdel' : ∀ s ∈ tr₃, s = Statement.delete rf.model.name [id] := by
    intro x hx
    obtain ⟨d, hd, rfl⟩ := hdel x hx
    simp only [delete_many, List.mem_singleton] at hd
    subst hd
    rfl
  rcases res with e₁ | u₁
  · refine ⟨tr₂, ?_, ?_⟩
    · simp [execute, find_record, hrec, hid, hcrv]
    · intro s hs
      exact .inl (hprobe s hs)
  · rcases res₂ with e₂ | u₂
    · refine ⟨tr₂ ++ tr₃, ?_, ?_⟩
      · simp [execute, find_record, hrec, hid, hcrv, hrun]
      · intro s hs
        rcases List.mem_append.mp hs with h | h
        · exact .inl (hprobe s h)
        · exact .inr (hdel' s h)
    · refine ⟨tr₂ ++ tr₃, ?_, ?_⟩
      · simp [execute, find_record, hrec, hid, hcrv, hrun]
      · intro s hs
        rcases List.mem_append.mp hs with h | h
        · exact .inl (hprobe s h)
        · exact .inr (hdel' s h)

/-- The trace of the steps after the pre-check, on any path, is the
parent-scoped lookup read followed only by the connectivity read for
the resolved child, violation probes for that child, and deletes of the
built plan for that child. -/
lemma nested_after_pre_trace_shape (env : Env) (parent_id : GraphqlId)
    (actions : NestedActions) (record_finder : Option RecordFinder)
    (relation_field : RelationField) (child_id : GraphqlId)
    (hfind : env.findIdByParent relation_field parent_id record_finder = .ok child_id) :
    ∃ tail, (nested_after_pre env parent_id actions record_finder relation_field).2 =
      Statement.selectFindIdByParent relation_field.relationName parent_id record_finder :: tail ∧
      ∀ s ∈ tail,
        s = Statement.selectConnected parent_id child_id ∨
        (∃ rn, s = Statement.selectViolationProbe relation_field.relatedModel.name rn [child_id]) ∨
        s = Statement.delete relation_field.relatedModel.name [child_id] := by
  have hprobe := check_relation_violations_probe_stmts env.violationProbeRows
    relation_field.relatedModel [child_id] relation_field.relatedModel.relations
  have hdel := runDeletes_delete_stmts env.deleteOutcome
    (delete_many relation_field.relatedModel [child_id])
  rcases hcrv : check_relation_violations env.violationProbeRows relation_field.relatedModel
    [child_id] relation_field.relatedModel.relations with ⟨res, tr₂⟩
  rcases hrun : runDeletes env.deleteOutcome
    (delete_many relation_field.relatedModel [child_id]) with ⟨res₂, tr₃⟩
  rw [hcrv] at hprobe
  rw [hrun] at hdel
  simp only at hprobe hdel
  have hdel' : ∀ s ∈ tr₃, s = Statement.delete relation_field.relatedModel.name [child_id] := by
    intro x hx
    obtain ⟨d, hd, rfl⟩ := hdel x hx
    simp only [delete_many, List.mem_singleton] at hd
    subst hd
    rfl
  rcases hchk : actions.check ((env.connectedRows parent_id child_id).head?.isSome)
    with e | u
  · refine ⟨[Statement.selectConnected parent_id child_id], ?_, ?_⟩
    · simp [nested_after_pre, hfind, hchk]
    · intro s hs
      simp at hs
      exact .inl hs
  · rcases res with e₁ | u₁
    · refine ⟨Statement.selectConnected parent_id child_id :: tr₂, ?_, ?_⟩
      · simp [nested_after_pre, hfind, hchk, hcrv]
      · intro s hs
        rcases List.mem_cons.mp hs with h | h
        · exact .inl h
        · exact .inr (.inl (hprobe s h))
    · rcases res₂ with e₂ | u₂
      · refine ⟨Statement.selectConnected parent_id child_id :: (tr₂ ++ tr₃), ?_, ?_⟩
        · simp [nested_after_pre, hfind, hchk, hcrv, hrun]
        · intro s hs
          rcases List.mem_cons.mp hs with h | h
          · exact .inl h
          · rcases List.mem_append.mp h with h | h
            · exact .inr (.inl (hprobe s h))
            · exact .inr (.inr (hdel' s h))
      · refine ⟨Statement.selectConnected parent_id child_id :: (tr₂ ++ tr₃), ?_, ?_⟩
        · simp [nested_after_pre, hfind, hchk, hcrv, hrun]
        · intro s hs
          rcases List.mem_cons.mp hs with h | h
          · exact .inl h
          · rcases List.mem_append.mp h with h | h
            · exact .inr (.inl (hprobe s h))
            · exact .inr (.inr (hdel' s h))

/-- C8 amended: in `execute` and in `execute_nested` without an
explicit finder, the key of each record involved is extracted once —
the trace holds exactly one key-extracting read, first — and threaded
through all subsequent checks, which target only that key; in the
explicit-finder path of `execute_nested` the child's key is looked up
twice — once by the existence pre-check, whose result is discarded, and
once by the parent-scoped lookup — and every subsequent check and
delete uses only the parent-scoped key. -/
theorem nested_keys_threaded_amended
    (env : Env) (rfT rfN : RecordFinder) (record : SingleRecord) (id : GraphqlId)
    (parent_id : GraphqlId) (actions : NestedActions)
    (relation_field : RelationField) (childN childS preId : GraphqlId)
    (hrec : env.findRecord rfT = some record)
    (hid : record.get_id_value rfT.model = some id)
    (hfindN : env.findIdByParent relation_field parent_id none = .ok childN)
    (hfid : env.findId rfN = some preId)
    (hfindS : env.findIdByParent relation_field parent_id (some rfN) = .ok childS) :
    (∃ tail, (execute env rfT).2 = Statement.selectFindRecord rfT :: tail ∧
      ∀ s ∈ tail,
        (∃ rn, s = Statement.selectViolationProbe rfT.model.name rn [id]) ∨
        s = Statement.delete rfT.model.name [id]) ∧
    (∃ tail, (execute_nested env parent_id actions none relation_field).2 =
        Statement.selectFindIdByParent relation_field.relationName parent_id none :: tail ∧
      ∀ s ∈ tail,
        s = Statement.selectConnected parent_id childN ∨
        (∃ rn, s = Statement.selectViolationProbe relation_field.relatedModel.name rn [childN]) ∨
        s = Statement.delete relation_field.relatedModel.name [childN]) ∧
    (∃ tail, (execute_nested env parent_id actions (some rfN) relation_field).2 =
        Statement.selectFindId rfN ::
        Statement.selectFindIdByParent relation_field.relationName parent_id (some rfN) :: tail ∧
      ∀ s ∈ tail,
        s = Statement.selectConnected parent_id childS ∨
        (∃ rn, s = Statement.selectViolationProbe relation_field.relatedModel.name rn [childS]) ∨
        s = Statement.delete relation_field.relatedModel.name [childS]) := by
  refine ⟨execute_trace_shape env rfT record id hrec hid, ?_, ?_⟩
  · obtain ⟨tail, htr, hch⟩ := nested_after_pre_trace_shape env parent_id actions
      none relation_field childN hfindN
    exact ⟨tail, htr, hch⟩
  · have hpre : preCheckOk env (some rfN) := by simp [preCheckOk, hfid]
    obtain ⟨tail, htr, hch⟩ := nested_after_pre_trace_shape env parent_id actions
      (some rfN) relation_field childS hfindS
    refine ⟨tail, ?_, hch⟩
    rw [execute_nested_of_pre env parent_id actions (some rfN) relation_field hpre, htr]
    rfl

/-- Witness for the amended C8 at the concrete fixtures. -/
theorem nested_keys_threaded_amended_witness :
    (∃ tail, (execute doubleLookupEnv userFinder).2 =
        Statement.selectFindRecord userFinder :: tail ∧
      ∀ s ∈ tail,
        (∃ rn, s = Statement.selectViolationProbe userModel.name rn [1]) ∨
        s = Statement.delete userModel.name [1]) ∧
    (∃ tail, (execute_nested doubleLookupEnv 1 postsActions none userPosts).2 =
        Statement.selectFindIdByParent userPosts.relationName 1 none :: tail ∧
      ∀ s ∈ tail,
        s = Statement.selectConnected 1 5 ∨
        (∃ rn, s = Statement.selectViolationProbe userPosts.relatedModel.name rn [5]) ∨
        s = Statement.delete userPosts.relatedModel.name [5]) ∧
    (∃ tail, (execute_nested doubleLookupEnv 1 postsActions (some postFinder) userPosts).2 =
        Statement.selectFindId postFinder ::
        Statement.selectFindIdByParent userPosts.relationName 1 (some postFinder) :: tail ∧
      ∀ s ∈ tail,
        s = Statement.selectConnected 1 5 ∨
        (∃ rn, s = Statement.selectViolationProbe userPosts.relatedModel.name rn [5]) ∨
        s = Statement.delete userPosts.relatedModel.name [5]) :=
  nested_keys_threaded_amended doubleLookupEnv userFinder postFinder userRecord 1 1
    postsActions userPosts 5 5 5 rfl (by decide) rfl rfl rfl

/-- Claim C9: the located record carries no value for the model's id
field. -/
def noIdRecord : SingleRecord := ⟨[("name", 3)]⟩

/-- Claim C9: a database whose locator read returns a record without an
id value. -/
def noIdEnv : Env where
  findRecord := fun _ => some noIdRecord
  findId := fun _ => none
  findIdByParent := fun _ _ _ => .ok 5
  connectedRows := fun _ _ => []
  violationProbeRows := fun _ _ _ => []
  deleteOutcome := fun _ _ => none

/-- C9: extracting the primary-key value from the located record uses
`unwrap`: when the located record carries no id value for the model's
id field, `execute` panics instead of returning a structured error, and
every non-panicking path has a well-defined id. -/
theorem execute_panics_on_missing_id
    (env : Env) (rf : RecordFinder) (record : SingleRecord)
    (hrec : env.findRecord rf = some record) :
    (record.get_id_value rf.model = none →
      (execute env rf).1 = .error .unwrapNonePanic) ∧
    ((execute env rf).1 ≠ .error .unwrapNonePanic →
      (record.get_id_value rf.model).isSome = true) := by
  constructor
  · intro hid
    rw [execute_unwrap_panic env rf record hrec hid]
  · intro hne
    rcases hid : record.get_id_value rf.model with _ | id
    · exact absurd (by rw [execute_unwrap_panic env rf record hrec hid]) hne
    · rfl

/-- Witness for C9 at the concrete fixtures. -/
theorem execute_panics_on_missing_id_witness :
    (execute noIdEnv userFinder).1 = .error .unwrapNonePanic :=
  (execute_panics_on_missing_id noIdEnv userFinder noIdRecord rfl).1 rfl

/-- Every statement of the steps after the pre-check is the
parent-scoped read, the connectivity read for the resolved child, a
violation probe for that child on the related model, or the single
planned delete of that child. -/
lemma nested_after_pre_stmts (env : Env) (parent_id : GraphqlId)
    (actions : NestedActions) (record_finder : Option RecordFinder)
    (relation_field : RelationField) (child_id : GraphqlId)
    (hfind : env.findIdByParent relation_field parent_id record_finder = .ok child_id) :
    ∀ s ∈ (nested_after_pre env parent_id actions record_finder relation_field).2,
      s = Statement.selectFindIdByParent relation_field.relationName parent_id record_finder ∨
      s = Statement.selectConnected parent_id child_id ∨
      (∃ rn, s = Statement.selectViolationProbe relation_field.relatedModel.name rn [child_id]) ∨
      s = Statement.delete relation_field.relatedModel.name [child_id] := by
  intro s hs
  have hprobe := check_relation_violations_probe_stmts env.violationProbeRows
    relation_field.relatedModel [child_id] relation_field.relatedModel.relations
  have hdel := runDeletes_delete_stmts env.deleteOutcome
    (delete_many relation_field.relatedModel [child_id])
  rcases hcrv : check_relation_violations env.violationProbeRows relation_field.relatedModel
    [child_id] relation_field.relatedModel.relations with ⟨res, tr₂⟩
  rcases hrun : runDeletes env.deleteOutcome
    (delete_many relation_field.relatedModel [child_id]) with ⟨res₂, tr₃⟩
  rw [hcrv] at hprobe
  rw [hrun] at hdel
  simp only at hprobe hdel
  have hdel' : ∀ s ∈ tr₃, s = Statement.delete relation_field.relatedModel.name [child_id] := by
    intro x hx
    obtain ⟨d, hd, rfl⟩ := hdel x hx
    simp only [delete_many, List.mem_singleton] at hd
    subst hd
    rfl
  rcases hchk : actions.check ((env.connectedRows parent_id child_id).head?.isSome)
    with e | u
  · simp [nested_after_pre, hfind, hchk] at hs
    rcases hs with hs | hs
    · exact .inl hs
    · exact .inr (.inl hs)
  · rcases res with e₁ | u₁
    · simp [nested_after_pre, hfind, hchk, hcrv] at hs
      rcases hs with hs | hs | hs
      · exact .inl hs
      · exact .inr (.inl hs)
      · exact .inr (.inr (.inl (hprobe s hs)))
    · rcases res₂ with e₂ | u₂
      · simp [nested_after_pre, hfind, hchk, hcrv, hrun] at hs
        rcases hs with hs | hs | hs | hs
        · exact .inl hs
        · exact .inr (.inl hs)
        · exact .inr (.inr (.inl (hprobe s hs)))
        · exact .inr (.inr (.inr (hdel' s hs)))
      · simp [nested_after_pre, hfind, hchk, hcrv, hrun] at hs
        rcases hs with hs | hs | hs | hs
        · exact .inl hs
        · exact .inr (.inl hs)
        · exact .inr (.inr (.inl (hprobe s hs)))
        · exact .inr (.inr (.inr (hdel' s hs)))

/-- Claim C10: same database as `snapshotEnv`, except the existence
pre-check returns a different id. -/
def snapshotEnvAlt : Env :=
  { snapshotEnv with findId := fun _ => some 99 }

/-- C10: in `execute_nested` with an explicit finder, the id returned
by the existence pre-check is discarded — two environments that agree
on everything except what id the pre-check read returns run
identically — and the child key that is connectivity-checked and
deleted is the parent-scoped lookup's result: the deletes target
exactly that single child key on the relation field's related model. -/
theorem pre_check_id_discarded_and_deletes_target_child
    (env env₂ : Env) (parent_id : GraphqlId) (actions : NestedActions)
    (rf : RecordFinder) (relation_field : RelationField) (child_id : GraphqlId)
    (hfind : env.findIdByParent relation_field parent_id (some rf) = .ok child_id)
    (hfid : (env.findId rf).isSome = true)
    (hfid₂ : (env₂.findId rf).isSome = true)
    (h2 : env₂.findIdByParent = env.findIdByParent)
    (h3 : env₂.connectedRows = env.connectedRows)
    (h4 : env₂.violationProbeRows = env.violationProbeRows)
    (h5 : env₂.deleteOutcome = env.deleteOutcome) :
    execute_nested env₂ parent_id actions (some rf) relation_field =
      execute_nested env parent_id actions (some rf) relation_field ∧
    (∀ s ∈ (execute_nested env parent_id actions (some rf) relation_field).2,
      s.isDelete = true →
      s = Statement.delete relation_field.relatedModel.name [child_id]) ∧
    (∀ p c, Statement.selectConnected p c ∈
      (execute_nested env parent_id actions (some rf) relation_field).2 →
      p = parent_id ∧ c = child_id) := by
  have hpre : preCheckOk env (some rf) := hfid
  have hpre₂ : preCheckOk env₂ (some rf) := hfid₂
  have hshapes := nested_after_pre_stmts env parent_id actions (some rf)
    relation_field child_id hfind
  refine ⟨?_, ?_, ?_⟩
  · rw [execute_nested_of_pre env₂ parent_id actions (some rf) relation_field hpre₂,
      execute_nested_of_pre env parent_id actions (some rf) relation_field hpre,
      nested_after_pre_congr env env₂ parent_id actions (some rf) relation_field
        h2 h3 h4 h5]
  · intro s hs hsd
    rw [execute_nested_of_pre env parent_id actions (some rf) relation_field hpre] at hs
    rcases List.mem_append.mp hs with h | h
    · simp [preTrace] at h
      subst h
      simp [Statement.isDelete] at hsd
    · rcases hshapes s h with h' | h' | h' | h'
      · subst h'
        simp [Statement.isDelete] at hsd
      · subst h'
        simp [Statement.isDelete] at hsd
      · obtain ⟨rn, rfl⟩ := h'
        simp [Statement.isDelete] at hsd
      · exact h'
  · intro p c hmem
    rw [execute_nested_of_pre env parent_id actions (some rf) relation_field hpre] at hmem
    rcases List.mem_append.mp hmem with h | h
    · simp [preTrace] at h
    · rcases hshapes _ h with h' | h' | h' | h'
      · simp at h'
      · simpa using h'
      · obtain ⟨rn, h'⟩ := h'
        simp at h'
      · simp at h'

/-- Witness for C10: changing the pre-check's returned id from 1 to 99
leaves the nested delete unchanged, and its one delete statement and
connectivity read target the parent-scoped child key 5. -/
theorem pre_check_id_discarded_and_deletes_target_child_witness :
    execute_nested snapshotEnvAlt 1 postsActions (some userFinder) userPosts =
      execute_nested snapshotEnv 1 postsActions (some userFinder) userPosts ∧
    Statement.delete "Post" [5] = Statement.delete userPosts.relatedModel.name [5] ∧
    (1 = 1 ∧ 5 = 5) :=
  ⟨(pre_check_id_discarded_and_deletes_target_child snapshotEnv snapshotEnvAlt 1
      postsActions userFinder userPosts 5 rfl rfl rfl rfl rfl rfl rfl).1,
   (pre_check_id_discarded_and_deletes_target_child snapshotEnv snapshotEnvAlt 1
      postsActions userFinder userPosts 5 rfl rfl rfl rfl rfl rfl rfl).2.1
     (Statement.delete "Post" [5]) (by decide) (by decide),
   (pre_check_id_discarded_and_deletes_target_child snapshotEnv snapshotEnvAlt 1
      postsActions userFinder userPosts 5 rfl rfl rfl rfl rfl rfl rfl).2.2
     1 5 (by decide)⟩

end PrismaDelete
